import Mathlib

/-!
Verification of the ESP8266 flashing engine (src/flashnchips/esp8266.cc).

This file gives a shallow embedding of the pure computational core of the
flasher: the SLIP codec, the command frame and response layout, the sync
loop, the flash-parameter determination and boot-image patching performed
at the start of FlasherImpl::run, the erase-length fixup for the ROM erase
bug, the final DIO-vs-flash_end dispatch, the identity-block generator and
detector, the image-directory loader, and the flash-parameter string
parser.  Byte sequences are modelled as List Nat (each element a byte
value), C++ signed 32-bit int values as Int with explicit two's-complement
conversions, and unsigned 64-bit ulong values as Nat with explicit
wrap-around where the source can underflow.
-/

namespace ESP8266

/-! ## C++ machine arithmetic

The source manipulates QByteArray bytes through the char-returning
operator[]; char is signed on the compilation targets, so a byte b is
sign-extended to the int value b (b below 128) or b - 256 (otherwise).
Int left shift, bitwise or and right shift on 32-bit values are modelled
through the two's-complement bit pattern. -/

/-- Sign extension of a byte to a C++ int, as done by reading a signed
char out of a QByteArray. -/
def sext8 (b : Nat) : Int :=
  if b < 128 then (b : Int) else (b : Int) - 256

/-- The 32-bit two's-complement bit pattern of a C++ int value. -/
def toU32 (x : Int) : Nat :=
  (x % (4294967296 : Int)).toNat

/-- Reading a 32-bit bit pattern back as a signed C++ int value. -/
def s32ofU32 (n : Nat) : Int :=
  if n % 4294967296 < 2147483648 then ((n % 4294967296 : Nat) : Int)
  else ((n % 4294967296 : Nat) : Int) - 4294967296

/-- C++ bitwise or of two int values (32-bit two's complement). -/
def orI32 (a b : Int) : Int :=
  s32ofU32 (toU32 a ||| toU32 b)

/-- C++ left shift of an int value by k bits (32-bit, gcc semantics on
negative operands). -/
def shlI32 (a : Int) (k : Nat) : Int :=
  s32ofU32 (toU32 a <<< k)

/-- The C++ expression (x >> 8) & 0xff on an int: arithmetic shift right
by 8 then low byte.  For a positive divisor, floor division on Int agrees
with the arithmetic shift, and the Euclidean remainder by 256 is exactly
the low byte of the two's-complement pattern. -/
def shr8and255 (x : Int) : Nat :=
  ((x / 256) % 256).toNat

/-- The C++ expression x & 0xff on an int. -/
def and255 (x : Int) : Nat :=
  (x % 256).toNat

/-! ## SLIP codec (SLIP_write / SLIP_read)

SLIP_write emits a 0xC0 delimiter, the escaped payload, and a closing
0xC0.  SLIP_read skips input up to and including the first 0xC0, then
accumulates bytes until the next unescaped 0xC0, translating the two
escape sequences and returning the partial accumulation on stream end or
on an invalid escape. -/

/-- Escape translation applied by SLIP_write to one payload byte. -/
def slipEscape (b : Nat) : List Nat :=
  if b = 192 then [219, 220]
  else if b = 219 then [219, 221]
  else [b]

/-- The byte sequence put on the wire by SLIP_write for a payload. -/
def SLIP_encode (bytes : List Nat) : List Nat :=
  192 :: ((bytes.map slipEscape).flatten ++ [192])

/-- The accumulation loop of SLIP_read, applied to the input that follows
the opening frame delimiter.  An end of input (read timeout in the
source), an end-of-frame delimiter, or an invalid escape sequence all
return what has been accumulated so far. -/
def slipBody : List Nat → List Nat
  | [] => []
  | c :: rest =>
    if c = 192 then []
    else if c = 219 then
      match rest with
      | [] => []
      | d :: rest2 =>
        if d = 220 then 192 :: slipBody rest2
        else if d = 221 then 219 :: slipBody rest2
        else []
    else c :: slipBody rest

/-- SLIP_read on a byte stream: drop everything before the first frame
delimiter, then run the accumulation loop on what follows it. -/
def SLIP_decode (input : List Nat) : List Nat :=
  match input.dropWhile (fun c => c != 192) with
  | [] => []
  | _ :: rest => slipBody rest

/-! ## Command channel (writeCommand / readResponse) -/

/-- The frame built by writeCommand before SLIP encoding: direction 0,
command byte, little-endian 16-bit payload length, 32-bit checksum padded
with three zero bytes, then the payload. -/
def writeCommandFrame (cmd : Nat) (payload : List Nat) (csum : Nat) : List Nat :=
  [0, cmd % 256, payload.length % 256, payload.length / 256 % 256,
   csum % 256, csum / 256 % 256, csum / 65536 % 256, csum / 16777216 % 256]
  ++ payload

/-- The Response record filled in by readResponse.  Defaults mirror the
field initialisers of the C++ struct. -/
structure Response where
  command : Nat := 255
  value : List Nat := []
  body : List Nat := []
  status : Nat := 0
  lastError : Nat := 0
  valid : Bool := false
deriving DecidableEq

/-- A response is ok when it parsed as valid and reports no error. -/
def Response.ok (r : Response) : Bool :=
  r.valid && r.status == 0 && r.lastError == 0

/-- The body length declared in a decoded response frame: little-endian
16-bit field at offsets 2 and 3. -/
def declaredBodyLen (resp : List Nat) : Nat :=
  resp.getD 2 0 + 256 * resp.getD 3 0

/-- readResponse on an already-decoded SLIP frame.  Frames shorter than
10 bytes and frames whose first byte is not direction 1 yield the default
(invalid) response.  Otherwise command, the 4 value bytes and the body are
read; in the source the body is resized to the declared length before the
raw read, so the status/lastError extraction condition (body length equal
to 2) is exactly (declared length equal to 2), and when it holds the two
body bytes at offsets 8 and 9 are in range because the frame has at least
10 bytes. -/
def readResponse (resp : List Nat) : Response :=
  if resp.length < 10 then {}
  else if resp.getD 0 0 ≠ 1 then {}
  else
    { command := resp.getD 1 0
      value := (resp.drop 4).take 4
      body := (resp.drop 8).take (declaredBodyLen resp)
      status := if declaredBodyLen resp = 2 then resp.getD 8 0 else 0
      lastError := if declaredBodyLen resp = 2 then resp.getD 9 0 else 0
      valid := true }

/-! ## Sync (sync / trySync)

The sync operation writes command 0x08 with a fixed payload and then
reads up to 8 responses, failing on the first one that does not parse as
valid.  The serial input is modelled as a stream of decoded SLIP frames,
one per readResponse call. -/

/-- The sync payload: 07 07 12 20 followed by 32 bytes of 0x55. -/
def syncPayload : List Nat :=
  [7, 7, 18, 32] ++ List.replicate 32 85

/-- The command frame written by sync (checksum defaulted to 0). -/
def syncCommandFrame : List Nat :=
  writeCommandFrame 8 syncPayload 0

/-- The response-consuming loop of sync: from frame index i, with n
responses still to check, succeed only if every checked response is
valid, stopping at the first invalid one. -/
def syncFrom (frames : Nat → List Nat) : Nat → Nat → Bool
  | _, 0 => true
  | i, n + 1 =>
    if (readResponse (frames i)).valid then syncFrom frames (i + 1) n else false

/-- sync consumes up to 8 responses starting at the first frame. -/
def sync (frames : Nat → List Nat) : Bool :=
  syncFrom frames 0 8

/-- Number of responses actually consumed by the loop of syncFrom. -/
def syncConsumedFrom (frames : Nat → List Nat) : Nat → Nat → Nat
  | _, 0 => 0
  | i, n + 1 =>
    if (readResponse (frames i)).valid then 1 + syncConsumedFrom frames (i + 1) n
    else 1

/-- Number of responses consumed by sync. -/
def syncConsumed (frames : Nat → List Nat) : Nat :=
  syncConsumedFrom frames 0 8

/-! ## Leaving flashing mode and the final step of run -/

/-- leaveFlashingModeLocked sends flash_end and reports success; a failed
response is forgiven exactly when the erase-bug workaround is active. -/
def leaveFlashingModeLocked (eraseBugWorkaround : Bool) (resp : Response) : Bool :=
  if resp.ok then true
  else if eraseBugWorkaround then true
  else false

/-- The frame written by leaveFlashingModeLocked: command 0x04 with
payload 01 00 00 00 (stay_in_loader = 1). -/
def flashEndFrame : List Nat :=
  writeCommandFrame 4 [1, 0, 0, 0] 0

/-- The final action taken by run after all images are written. -/
inductive FinalStep where
  | rebootFirmware : FinalStep
  | flashEnd : List Nat → FinalStep
deriving DecidableEq

/-- The switch at the end of run: on mode byte 2 (DIO) reboot into
firmware, otherwise send flash_end via leaveFlashingModeLocked. -/
def finalStep (flashParams : Int) : FinalStep :=
  if shr8and255 flashParams = 2 then FinalStep.rebootFirmware
  else FinalStep.flashEnd flashEndFrame

/-- Success of the final phase of run: the DIO path always succeeds, the
flash_end path succeeds only if leaveFlashingModeLocked does. -/
def runFinalOutcome (flashParams : Int) (eraseBugWorkaround : Bool) (resp : Response) : Bool :=
  match finalStep flashParams with
  | FinalStep.rebootFirmware => true
  | FinalStep.flashEnd _ => leaveFlashingModeLocked eraseBugWorkaround resp

/-! ## Flash-parameter determination and boot-image patch (run, first part)

From the source: flashParams starts at -1; an override value that is
non-negative wins; otherwise with preserve_flash_params the two bytes
returned by readFlashParamsLocked are combined by the int expression
params[0] << 8 | params[1] on sign-extended chars; a short read aborts the
run.  If a boot image (address 0, length at least 4, first byte 0xE9) is
present and flashParams is non-negative, its bytes 2 and 3 are overwritten
with (flashParams >> 8) & 0xff and flashParams & 0xff, and flashParams is
then re-read from the (possibly patched) image bytes with the same
sign-extending int expression. -/

/-- The int value built by run from the two bytes read off the device:
params[0] << 8 | params[1] on sign-extended chars. -/
def deviceFlashParams (p0 p1 : Nat) : Int :=
  orI32 (shlI32 (sext8 p0) 8) (sext8 p1)

/-- readFlashParamsLocked on the first 4 (or more) bytes read from the
device flash: require the 0xE9 image magic, then return bytes 2 and 3. -/
def readFlashParams (r : List Nat) : List Nat :=
  if r.getD 0 0 = 233 then (r.drop 2).take 2 else []

/-- Outcome of the flash-parameter phase of run. -/
structure ParamPhaseResult where
  flashParams : Int
  image0 : Option (List Nat)
  aborted : Bool
deriving DecidableEq

/-- The boot-image patch: bytes 2 and 3 are overwritten only when the
current flashParams value is non-negative. -/
def patchBootImage (fp : Int) (img : List Nat) : List Nat :=
  if 0 ≤ fp then (img.set 2 (shr8and255 fp)).set 3 (and255 fp) else img

/-- The flash-parameter phase of run: determine flashParams from the
override or the device read, then patch the boot image and re-derive
flashParams from its bytes. -/
def runParamsPhase (override : Int) (preserve : Bool) (deviceRead : List Nat)
    (img0 : Option (List Nat)) : ParamPhaseResult :=
  let step1 : Option Int :=
    if 0 ≤ override then some override
    else if preserve then
      if deviceRead.length = 2 then
        some (deviceFlashParams (deviceRead.getD 0 0) (deviceRead.getD 1 0))
      else none
    else some (-1)
  match step1 with
  | none => { flashParams := -1, image0 := img0, aborted := true }
  | some fp =>
    match img0 with
    | some img =>
      if 4 ≤ img.length ∧ img.getD 0 0 = 233 then
        let img2 := patchBootImage fp img
        { flashParams := orI32 (shlI32 (sext8 (img2.getD 2 0)) 8) (sext8 (img2.getD 3 0))
          image0 := some img2
          aborted := false }
      else { flashParams := fp, image0 := some img, aborted := false }
    | none => { flashParams := fp, image0 := none, aborted := false }

/-! ## Erase-length fixup (fixupEraseLength) -/

/-- Number of whole 4096-byte sectors covering len bytes, as computed in
fixupEraseLength (integer division plus one when a remainder exists). -/
def ceilSectors (len : Nat) : Nat :=
  len / 4096 + (if len % 4096 ≠ 0 then 1 else 0)

/-- fixupEraseLength from the source: with tail the number of sectors up
to the next 64 KB block boundary and sectors the requested sector count,
either halve (rounding up) or subtract the tail, in bytes. -/
def fixupEraseLength (start len : Nat) : Nat :=
  let tail := 16 - (start / 4096) % 16
  let sectors := ceilSectors len
  if sectors ≤ 2 * tail then (sectors / 2 + sectors % 2) * 4096
  else len - tail * 4096

/-- The defective sector count actually erased by the ROM SPIEraseArea for
a requested count y when t sectors remain in the first 64 KB block:
2y when y is at most t, otherwise y + t.  The ROM receives a byte length
and, like the source, covers it with whole sectors rounding up. -/
def romErasedSectors (y t : Nat) : Nat :=
  if y ≤ t then 2 * y else y + t

/-! ## Identity block (generateIdBlock / findIdLocked)

SHA-1 is an external collaborator (QCryptographicHash); it is modelled as
an arbitrary hash function parameter whose output is 20 bytes long, the
same function being used by the generator and the detector.  The 12
pseudo-random bytes drawn from qrand are a parameter as well.  The
hostname is taken as its UTF-8 byte sequence; the QString arg substitution
is modelled as plain splicing, which matches the source for hostnames that
contain no percent placeholder. -/

/-- Byte values of the characters of an ASCII string literal. -/
def strBytes (s : String) : List Nat :=
  s.data.map Char.toNat

/-- The URL-safe base64 alphabet used by QByteArray toBase64 with
Base64UrlEncoding. -/
def b64alphabet : List Nat :=
  strBytes "ABCDEFGHIJKLMNOPQRSTUVWXYZabcdefghijklmnopqrstuvwxyz0123456789-_"

/-- Alphabet character for a 6-bit group. -/
def b64char (n : Nat) : Nat :=
  b64alphabet.getD (n % 64) 65

/-- URL-safe base64 without trailing padding (OmitTrailingEquals), as
produced by QByteArray toBase64 for the id and key fields. -/
def base64url : List Nat → List Nat
  | b1 :: b2 :: b3 :: rest =>
    b64char (b1 / 4) :: b64char (b1 % 4 * 16 + b2 / 16)
      :: b64char (b2 % 16 * 4 + b3 / 64) :: b64char (b3 % 64) :: base64url rest
  | [b1, b2] => [b64char (b1 / 4), b64char (b1 % 4 * 16 + b2 / 16), b64char (b2 % 16 * 4)]
  | [b1] => [b64char (b1 / 4), b64char (b1 % 4 * 16)]
  | [] => []

/-- The UTF-8 JSON payload written into the identity block; the id is the
base64 of the first 5 random bytes, the key that of the remaining 7. -/
def idPayload (host rnd : List Nat) : List Nat :=
  strBytes "\x7b\"id\":\"//" ++ host ++ strBytes "/d/" ++ base64url (rnd.take 5)
    ++ strBytes "\",\"key\":\"" ++ base64url (rnd.drop 5) ++ strBytes "\"\x7d"

/-- The padding count computed by the source: idBlockSize - r.length() is
evaluated in 64-bit unsigned arithmetic (wrapping on underflow), narrowed
to a 32-bit int for QByteArray repeated, which returns an empty array for
any count below 1. -/
def qtRepeatTimes (lenR : Nat) : Int :=
  s32ofU32 ((((4096 : Int) - (lenR : Int)) % (18446744073709551616 : Int)).toNat % 4294967296)

/-- Number of 0xFF padding bytes actually appended. -/
def padCount (lenR : Nat) : Nat :=
  if qtRepeatTimes lenR < 1 then 0 else (qtRepeatTimes lenR).toNat

/-- generateIdBlock: SHA-1 of the payload, the payload, a single zero
terminator, then 0xFF padding. -/
def generateIdBlock (sha1 : List Nat → List Nat) (host rnd : List Nat) : List Nat :=
  let data := idPayload host rnd
  let r := sha1 data ++ data ++ [0]
  r ++ List.replicate (padCount r.length) 255

/-- Index of the first zero byte of a list, as QByteArray indexOf. -/
def zeroIndexFrom : List Nat → Option Nat
  | [] => none
  | c :: rest => if c = 0 then some 0 else (zeroIndexFrom rest).map (· + 1)

/-- The presence check of findIdLocked applied to a block read from
flash: find the terminator from offset 20 on, then compare the first 20
bytes with the hash of the payload between offset 20 and the
terminator. -/
def findIdLocked (sha1 : List Nat → List Nat) (r : List Nat) : Bool :=
  match zeroIndexFrom (r.drop 20) with
  | none => false
  | some i => if r.take 20 = sha1 ((r.drop 20).take i) then true else false

/-! ## Image directory loading (FlasherImpl::load)

The filesystem is an external collaborator: a directory listing is a list
of entries carrying the file stem (base name), whether opening succeeds,
the bytes readAll returns, and the size reported by the file metadata. -/

/-- One candidate firmware file as seen by load. -/
structure ImageFile where
  baseName : List Char
  openOk : Bool
  content : List Nat
  reportedSize : Nat

/-- The errors load can return. -/
inductive LoadError where
  | dirMissing : LoadError
  | noFiles : LoadError
  | notValidAddress : LoadError
  | openFailed : LoadError
  | sizeMismatch : LoadError
deriving DecidableEq

/-- Value of a hexadecimal digit character. -/
def hexDigitVal (c : Char) : Option Nat :=
  if '0' ≤ c ∧ c ≤ '9' then some (c.toNat - 48)
  else if 'a' ≤ c ∧ c ≤ 'f' then some (c.toNat - 87)
  else if 'A' ≤ c ∧ c ≤ 'F' then some (c.toNat - 55)
  else none

/-- Accumulate hexadecimal digits most significant first. -/
def hexDigitsVal : List Char → Nat → Option Nat
  | [], acc => some acc
  | c :: rest, acc =>
    match hexDigitVal c with
    | none => none
    | some d => hexDigitsVal rest (acc * 16 + d)

/-- QString toULong with base 16: an optional 0x or 0X prefix, then a
non-empty run of hexadecimal digits consuming the whole string, failing
on overflow past 64 bits. -/
def parseHexULong (s : List Char) : Option Nat :=
  let body : List Char :=
    match s with
    | '0' :: 'x' :: rest => rest
    | '0' :: 'X' :: rest => rest
    | rest => rest
  if body.isEmpty then none
  else
    match hexDigitsVal body 0 with
    | none => none
    | some v => if v < 18446744073709551616 then some v else none

/-- QMap insert: replace the value under an existing key, otherwise add
the binding (key order is irrelevant to the properties proved here). -/
def mapInsert : List (Nat × List Nat) → Nat → List Nat → List (Nat × List Nat)
  | [], k, v => [(k, v)]
  | (k', v') :: rest, k, v =>
    if k = k' then (k, v) :: rest else (k', v') :: mapInsert rest k v

/-- The per-file loop of load.  A stem that does not parse or a file that
cannot be opened returns immediately, leaving the bindings made so far in
the map; a readAll size mismatch clears the map before returning. -/
def loadGo : List ImageFile → List (Nat × List Nat) → List (Nat × List Nat) × Option LoadError
  | [], m => (m, none)
  | f :: rest, m =>
    match parseHexULong f.baseName with
    | none => (m, some LoadError.notValidAddress)
    | some addr =>
      if f.openOk = false then (m, some LoadError.openFailed)
      else if f.content.length ≠ f.reportedSize then ([], some LoadError.sizeMismatch)
      else loadGo rest (mapInsert m addr f.content)

/-- FlasherImpl::load: the image map is cleared first (the previous
contents, passed here only to show they are discarded, never reach the
result), then the directory and listing checks run, then the per-file
loop. -/
def load (dirExists : Bool) (files : List ImageFile)
    (prevImages : List (Nat × List Nat)) : List (Nat × List Nat) × Option LoadError :=
  let _ := prevImages
  if !dirExists then ([], some LoadError.dirMissing)
  else if files.isEmpty then ([], some LoadError.noFiles)
  else loadGo files []

/-- A file that load processes without error: parsable stem, successful
open, readAll length matching the reported size. -/
def goodFile (g : ImageFile) : Prop :=
  (parseHexULong g.baseName).isSome = true ∧ g.openOk = true
    ∧ g.content.length = g.reportedSize

instance (g : ImageFile) : Decidable (goodFile g) := by
  unfold goodFile
  infer_instance

/-- The map produced by loading a list of good files into an empty map. -/
def goodMap (gs : List ImageFile) : List (Nat × List Nat) :=
  gs.foldl (fun m g => mapInsert m ((parseHexULong g.baseName).getD 0) g.content) []

/-! ## Flash-parameter strings (flashParamsFromString) -/

/-- QString split on a comma, keeping empty parts. -/
def splitComma : List Char → List (List Char)
  | [] => [[]]
  | c :: rest =>
    match splitComma rest with
    | [] => [[]]
    | p :: ps => if c = ',' then [] :: p :: ps else (c :: p) :: ps

/-- The flash mode alphabet. -/
def flashMode : List (List Char × Nat) :=
  [("qio".data, 0), ("qout".data, 1), ("dio".data, 2), ("dout".data, 3)]

/-- The flash size alphabet. -/
def flashSize : List (List Char × Nat) :=
  [("4m".data, 0), ("2m".data, 1), ("8m".data, 2), ("16m".data, 3), ("32m".data, 4),
   ("16m-c1".data, 5), ("32m-c1".data, 6), ("32m-c2".data, 7)]

/-- The flash frequency alphabet. -/
def flashFreq : List (List Char × Nat) :=
  [("40m".data, 0), ("26m".data, 1), ("20m".data, 2), ("80m".data, 15)]

/-- std::map find by exact key equality. -/
def mapFind (m : List (List Char × Nat)) (k : List Char) : Option Nat :=
  match m with
  | [] => none
  | (k', v) :: rest => if k = k' then some v else mapFind rest k

/-- Digits of a numeral in the given base, most significant first. -/
def digitsVal (base : Nat) : List Char → Nat → Option Nat
  | [], acc => some acc
  | c :: rest, acc =>
    match hexDigitVal c with
    | none => none
    | some d => if d < base then digitsVal base rest (acc * base + d) else none

/-- The C-convention unsigned numeral: 0x or 0X prefix for base 16, a
leading 0 for base 8, otherwise base 10. -/
def parseUnsigned : List Char → Option Nat
  | '0' :: 'x' :: rest => if rest.isEmpty then none else digitsVal 16 rest 0
  | '0' :: 'X' :: rest => if rest.isEmpty then none else digitsVal 16 rest 0
  | '0' :: rest => if rest.isEmpty then some 0 else digitsVal 8 rest 0
  | rest => if rest.isEmpty then none else digitsVal 10 rest 0

/-- QString toInt with base 0: C numeral conventions with an optional
sign, failing when the value does not fit a 32-bit int. -/
def cppToInt : List Char → Option Int
  | '-' :: rest =>
    match parseUnsigned rest with
    | some v => if v ≤ 2147483648 then some (-(v : Int)) else none
    | none => none
  | '+' :: rest =>
    match parseUnsigned rest with
    | some v => if v ≤ 2147483647 then some ((v : Int)) else none
    | none => none
  | s =>
    match parseUnsigned s with
    | some v => if v ≤ 2147483647 then some ((v : Int)) else none
    | none => none

/-- The parse error kind returned by flashParamsFromString. -/
inductive FlashParamsError where
  | invalidArgument : FlashParamsError
deriving DecidableEq

instance : DecidableEq (Except FlashParamsError Nat) := fun a b =>
  match a, b with
  | Except.ok x, Except.ok y =>
    match decEq x y with
    | isTrue h => isTrue (congrArg Except.ok h)
    | isFalse h => isFalse (fun hc => h (Except.ok.inj hc))
  | Except.ok _, Except.error _ => isFalse (fun hc => Except.noConfusion hc)
  | Except.error _, Except.ok _ => isFalse (fun hc => Except.noConfusion hc)
  | Except.error e, Except.error f =>
    match decEq e f with
    | isTrue h => isTrue (congrArg Except.error h)
    | isFalse h => isFalse (fun hc => h (Except.error.inj hc))

/-- flashParamsFromString: one comma-separated part is a raw numeral
masked to its low 16 bits; three parts are looked up in the mode, size and
frequency alphabets and packed as (m << 8) | (s << 4) | f; anything else
is an invalid argument. -/
def flashParamsFromString (s : List Char) : Except FlashParamsError Nat :=
  let parts := splitComma s
  if parts.length = 1 then
    match cppToInt s with
    | some r => Except.ok ((r % 65536).toNat)
    | none => Except.error FlashParamsError.invalidArgument
  else if parts.length = 3 then
    match mapFind flashMode (parts.getD 0 []) with
    | none => Except.error FlashParamsError.invalidArgument
    | some m =>
      match mapFind flashSize (parts.getD 1 []) with
      | none => Except.error FlashParamsError.invalidArgument
      | some sz =>
        match mapFind flashFreq (parts.getD 2 []) with
        | none => Except.error FlashParamsError.invalidArgument
        | some fr => Except.ok ((m <<< 8 ||| sz <<< 4) ||| fr)
  else Except.error FlashParamsError.invalidArgument

/-! ## Theorems -/

/-- C2: for every start address and positive length, feeding the
corrected erase length through the defective ROM erase behaviour erases
either exactly the requested number x of sectors, or x + 1 sectors, the
latter only when x is odd and at most twice the tail of the first 64 KB
block. -/
theorem fixupEraseLength_neutralises_erase_bug (addr len : Nat) (hlen : 0 < len) :
    romErasedSectors (ceilSectors (fixupEraseLength addr len)) (16 - addr / 4096 % 16)
        = ceilSectors len
    ∨ (romErasedSectors (ceilSectors (fixupEraseLength addr len)) (16 - addr / 4096 % 16)
          = ceilSectors len + 1
        ∧ ceilSectors len % 2 = 1
        ∧ ceilSectors len ≤ 2 * (16 - addr / 4096 % 16)) := by
  simp only [fixupEraseLength, ceilSectors, romErasedSectors]
  split_ifs <;> omega

/-- C2 witness: the spec scenario of a 16-sector erase starting at a
block boundary, where exactly the requested count is erased. -/
theorem fixupEraseLength_neutralises_erase_bug_witness :
    0 < 16384
    ∧ (romErasedSectors (ceilSectors (fixupEraseLength 65536 16384)) (16 - 65536 / 4096 % 16)
          = ceilSectors 16384
        ∨ (romErasedSectors (ceilSectors (fixupEraseLength 65536 16384)) (16 - 65536 / 4096 % 16)
              = ceilSectors 16384 + 1
            ∧ ceilSectors 16384 % 2 = 1
            ∧ ceilSectors 16384 ≤ 2 * (16 - 65536 / 4096 % 16))) :=
  ⟨by decide, fixupEraseLength_neutralises_erase_bug 65536 16384 (by decide)⟩

/-- The SLIP accumulation loop inverts the escape translation of a whole
encoded payload terminated by the closing frame delimiter. -/
theorem slipBody_encoded (b : List Nat) :
    slipBody ((b.map slipEscape).flatten ++ [192]) = b := by
  induction b with
  | nil => simp [slipBody]
  | cons c rest ih =>
    by_cases h1 : c = 192
    · subst h1
      have hL : (((192 :: rest).map slipEscape).flatten ++ [192] : List Nat)
          = 219 :: 220 :: ((rest.map slipEscape).flatten ++ [192]) := by
        simp [slipEscape]
      rw [hL, slipBody.eq_def]
      simp [ih]
    · by_cases h2 : c = 219
      · subst h2
        have hL : (((219 :: rest).map slipEscape).flatten ++ [192] : List Nat)
            = 219 :: 221 :: ((rest.map slipEscape).flatten ++ [192]) := by
          simp [slipEscape]
        rw [hL, slipBody.eq_def]
        simp [ih]
      · have hL : (((c :: rest).map slipEscape).flatten ++ [192] : List Nat)
            = c :: ((rest.map slipEscape).flatten ++ [192]) := by
          simp [slipEscape, h1, h2]
        rw [hL, slipBody.eq_def]
        simp [h1, h2, ih]

/-- C3: decoding the SLIP encoding of any byte sequence yields the
sequence back. -/
theorem SLIP_decode_SLIP_encode (b : List Nat) :
    SLIP_decode (SLIP_encode b) = b := by
  simp [SLIP_decode, SLIP_encode, List.dropWhile_cons, slipBody_encoded]

/-- C5: the final step of run is decided by the C++ expression
(flashParams >> 8) & 0xff on the flash-parameter value: value 2 (DIO)
takes the reboot-into-firmware pulse and sends no flash_end frame, any
other value sends the flash_end frame with stay_in_loader 1. -/
theorem finalStep_dio_dispatch (fp : Int) :
    (shr8and255 fp = 2 → finalStep fp = FinalStep.rebootFirmware)
    ∧ (shr8and255 fp ≠ 2 →
        finalStep fp = FinalStep.flashEnd [0, 4, 4, 0, 0, 0, 0, 0, 1, 0, 0, 0]) := by
  constructor
  · intro h
    simp [finalStep, h]
  · intro h
    simp [finalStep, h]
    rfl

/-- C5 witness: the flash-parameter value 0x0240 written for dio,32m,40m
has mode byte 2 and takes the reboot path. -/
theorem finalStep_dio_dispatch_witness :
    shr8and255 576 = 2 ∧ finalStep 576 = FinalStep.rebootFirmware :=
  ⟨by decide, (finalStep_dio_dispatch 576).1 (by decide)⟩

/-- C7: a failed flash_end response is forgiven exactly when the
erase-bug workaround is active: leaveFlashingModeLocked returns true with
the workaround and false without it, and without it the failure decides
the outcome of the final phase of run on the non-DIO path. -/
theorem leaveFlashingMode_erase_bug_workaround (resp : Response) (h : resp.ok = false) :
    leaveFlashingModeLocked true resp = true
    ∧ leaveFlashingModeLocked false resp = false
    ∧ (∀ fp : Int, shr8and255 fp ≠ 2 → runFinalOutcome fp false resp = false) := by
  refine ⟨by simp [leaveFlashingModeLocked, h], by simp [leaveFlashingModeLocked, h], ?_⟩
  intro fp hfp
  simp [runFinalOutcome, finalStep, hfp, leaveFlashingModeLocked, h]

/-- C7 witness: the invalid response produced by an empty read is not ok,
is forgiven with the workaround and is terminal without it. -/
theorem leaveFlashingMode_erase_bug_workaround_witness :
    leaveFlashingModeLocked true (readResponse []) = true
    ∧ leaveFlashingModeLocked false (readResponse []) = false
    ∧ runFinalOutcome 0 false (readResponse []) = false :=
  ⟨(leaveFlashingMode_erase_bug_workaround (readResponse []) (by decide)).1,
   (leaveFlashingMode_erase_bug_workaround (readResponse []) (by decide)).2.1,
   (leaveFlashingMode_erase_bug_workaround (readResponse []) (by decide)).2.2 0 (by decide)⟩

/-- C10 counterexample: a received frame declaring body length 0 (below
2) but carrying two trailing junk bytes reaches 10 total bytes, and
readResponse marks it valid, and even ok. -/
theorem readResponse_short_body_counterexample :
    declaredBodyLen [1, 8, 0, 0, 0, 0, 0, 0, 99, 99] < 2
    ∧ (readResponse [1, 8, 0, 0, 0, 0, 0, 0, 99, 99]).valid = true
    ∧ (readResponse [1, 8, 0, 0, 0, 0, 0, 0, 99, 99]).ok = true := by
  decide

/-- C10 amended: readResponse marks a response valid only when the frame
has at least 10 bytes; hence every well-formed frame, one whose total
length is the 8 header and value bytes plus its declared body length,
with declared body length below 2 is marked invalid and is never ok. -/
theorem readResponse_short_frame_invalid (frame : List Nat) (bl : Nat)
    (hwf : frame.length = 8 + bl) (hbl : bl < 2) :
    ((readResponse frame).valid = true → 10 ≤ frame.length)
    ∧ (readResponse frame).valid = false ∧ (readResponse frame).ok = false := by
  have hlt : frame.length < 10 := by omega
  simp [readResponse, hlt, Response.ok]

/-- C10 witness: the well-formed empty-body response frame is rejected. -/
theorem readResponse_short_frame_invalid_witness :
    (((readResponse [1, 4, 0, 0, 0, 0, 0, 0]).valid = true
        → 10 ≤ ([1, 4, 0, 0, 0, 0, 0, 0] : List Nat).length)
      ∧ (readResponse [1, 4, 0, 0, 0, 0, 0, 0]).valid = false
      ∧ (readResponse [1, 4, 0, 0, 0, 0, 0, 0]).ok = false) :=
  readResponse_short_frame_invalid [1, 4, 0, 0, 0, 0, 0, 0] 0 (by decide) (by decide)

/-- The sync loop succeeds exactly when every response it would check is
valid. -/
theorem syncFrom_true_iff (frames : Nat → List Nat) (n : Nat) :
    ∀ i, (syncFrom frames i n = true
      ↔ ∀ j, j < n → (readResponse (frames (i + j))).valid = true) := by
  induction n with
  | zero =>
    intro i
    simp [syncFrom]
  | succ n ih =>
    intro i
    rw [syncFrom.eq_def]
    by_cases hv : (readResponse (frames i)).valid = true
    · simp only [hv, if_true]
      rw [ih (i + 1)]
      constructor
      · intro h j hj
        cases j with
        | zero => simpa using hv
        | succ j' =>
          have := h j' (by omega)
          simpa [show i + 1 + j' = i + (j' + 1) by omega] using this
      · intro h j hj
        have := h (j + 1) (by omega)
        simpa [show i + (j + 1) = i + 1 + j by omega] using this
    · simp only [Bool.not_eq_true] at hv
      simp only [hv]
      constructor
      · intro h
        cases h
      · intro h
        have := h 0 (by omega)
        simp at this
        rw [this] at hv
        cases hv

/-- The sync loop consumes exactly up to and including the first invalid
response. -/
theorem syncConsumedFrom_first_invalid (frames : Nat → List Nat) (n : Nat) :
    ∀ i j, j < n → (∀ k, k < j → (readResponse (frames (i + k))).valid = true) →
      (readResponse (frames (i + j))).valid = false →
      syncConsumedFrom frames i n = j + 1 := by
  induction n with
  | zero =>
    intro i j hj
    omega
  | succ n ih =>
    intro i j hj hall hinv
    rw [syncConsumedFrom.eq_def]
    cases j with
    | zero =>
      have h0 : (readResponse (frames i)).valid = false := by simpa using hinv
      simp [h0]
    | succ j' =>
      have h0 : (readResponse (frames i)).valid = true := by
        simpa using hall 0 (by omega)
      simp only [h0, if_true]
      have hrec := ih (i + 1) j' (by omega)
        (fun k hk => by
          simpa [show i + 1 + k = i + (k + 1) by omega] using hall (k + 1) (by omega))
        (by simpa [show i + 1 + j' = i + (j' + 1) by omega] using hinv)
      omega

/-- C6: sync sends command 0x08 with the payload 07 07 12 20 followed by
32 bytes of 0x55, consumes up to 8 responses, succeeds exactly when all 8
are valid, and stops consuming and fails at the first invalid one. -/
theorem sync_requires_all_eight_valid (frames : Nat → List Nat) :
    syncPayload = [7, 7, 18, 32] ++ List.replicate 32 85
    ∧ syncCommandFrame = [0, 8, 36, 0, 0, 0, 0, 0] ++ syncPayload
    ∧ (sync frames = true ↔ ∀ i, i < 8 → (readResponse (frames i)).valid = true)
    ∧ (∀ j, j < 8 → (∀ k, k < j → (readResponse (frames k)).valid = true) →
        (readResponse (frames j)).valid = false →
        sync frames = false ∧ syncConsumed frames = j + 1) := by
  refine ⟨rfl, by decide, ?_, ?_⟩
  · have h := syncFrom_true_iff frames 8 0
    simpa [sync] using h
  · intro j hj hall hinv
    constructor
    · cases hs : sync frames with
      | false => rfl
      | true =>
        exfalso
        have h := (syncFrom_true_iff frames 8 0).mp (by simpa [sync] using hs) j hj
        simp at h
        rw [h] at hinv
        cases hinv
    · have h := syncConsumedFrom_first_invalid frames 8 0 j hj (by simpa using hall)
        (by simpa using hinv)
      simpa [syncConsumed] using h

/-- C6 witness: with every incoming frame a well-formed valid response,
sync succeeds. -/
theorem sync_requires_all_eight_valid_witness :
    sync (fun _ => [1, 8, 0, 0, 0, 0, 0, 0, 99, 99]) = true :=
  (sync_requires_all_eight_valid (fun _ => [1, 8, 0, 0, 0, 0, 0, 0, 99, 99])).2.2.1.mpr
    (fun i _ => by decide)

/-- A small natural cast through toU32 is the identity. -/
theorem toU32_ofNat_small (n : Nat) (h : n < 4294967296) : toU32 ((n : Nat) : Int) = n := by
  unfold toU32
  omega

/-- A bit pattern below 2^31 reads back as the same natural value. -/
theorem s32ofU32_small (n : Nat) (h : n < 2147483648) : s32ofU32 n = ((n : Nat) : Int) := by
  unfold s32ofU32
  split_ifs <;> omega

/-- Left shift by 8 of a small non-negative int. -/
theorem shlI32_small (n : Nat) (h : n < 128) :
    shlI32 ((n : Nat) : Int) 8 = ((n * 256 : Nat) : Int) := by
  unfold shlI32
  rw [toU32_ofNat_small n (by omega)]
  have hs : n <<< 8 = n * 256 := by
    rw [Nat.shiftLeft_eq]
  rw [hs]
  exact s32ofU32_small _ (by omega)

/-- For device header bytes below 0x80, the sign-extending int expression
params0 << 8 | params1 assembles the expected non-negative value. -/
theorem deviceFlashParams_small (p0 p1 : Nat) (h0 : p0 < 128) (h1 : p1 < 128) :
    deviceFlashParams p0 p1 = ((p0 * 256 + p1 : Nat) : Int) := by
  unfold deviceFlashParams
  have e0 : sext8 p0 = ((p0 : Nat) : Int) := by
    unfold sext8
    rw [if_pos h0]
  have e1 : sext8 p1 = ((p1 : Nat) : Int) := by
    unfold sext8
    rw [if_pos h1]
  rw [e0, e1, shlI32_small p0 h0]
  unfold orI32
  rw [toU32_ofNat_small (p0 * 256) (by omega), toU32_ofNat_small p1 (by omega)]
  have hlor : (p0 * 256) ||| p1 = p0 * 256 + p1 := by
    have h := Nat.mul_add_lt_is_or (b := p1) (i := 8) (by omega) p0
    calc (p0 * 256) ||| p1 = 2 ^ 8 * p0 ||| p1 := by rw [mul_comm]
      _ = 2 ^ 8 * p0 + p1 := h.symm
      _ = p0 * 256 + p1 := by ring
  rw [hlor]
  exact s32ofU32_small _ (by omega)

/-- C1 amended: with preserve_flash_params and no override, run copies
the two device header bytes into bytes 2 and 3 of the boot image,
provided both bytes are below 0x80 (sign extension makes the assembled
int negative otherwise and the patch is skipped); an override value that
is non-negative takes precedence and its two bytes are written instead.
The first conjunct records that readFlashParamsLocked extracts exactly
bytes 2 and 3 of the device flash header. -/
theorem run_boot_image_flash_params_patch (ov : Int) (img : List Nat) (p0 p1 : Nat)
    (hlen : 4 ≤ img.length) (hhdr : img.getD 0 0 = 233) :
    (∀ b1 rest, readFlashParams (233 :: b1 :: p0 :: p1 :: rest) = [p0, p1])
    ∧ (ov < 0 → p0 < 128 → p1 < 128 →
        (runParamsPhase ov true [p0, p1] (some img)).image0
            = some ((img.set 2 p0).set 3 p1)
        ∧ (runParamsPhase ov true [p0, p1] (some img)).aborted = false)
    ∧ (0 ≤ ov → ∀ deviceRead,
        (runParamsPhase ov true deviceRead (some img)).image0
          = some ((img.set 2 (shr8and255 ov)).set 3 (and255 ov))) := by
  refine ⟨?_, ?_, ?_⟩
  · intro b1 rest
    simp [readFlashParams]
  · intro hov hp0 hp1
    have hfp : deviceFlashParams p0 p1 = ((p0 * 256 + p1 : Nat) : Int) :=
      deviceFlashParams_small p0 p1 hp0 hp1
    have hsh : shr8and255 ((p0 * 256 + p1 : Nat) : Int) = p0 := by
      unfold shr8and255
      omega
    have han : and255 ((p0 * 256 + p1 : Nat) : Int) = p1 := by
      unfold and255
      omega
    simp only [runParamsPhase]
    rw [if_neg (show ¬(0 ≤ ov) by omega)]
    simp only [if_true, List.length_cons, List.length_nil, List.getD_cons_zero,
      List.getD_cons_succ, if_pos rfl, reduceIte]
    rw [hfp]
    simp only [if_pos (And.intro hlen hhdr)]
    unfold patchBootImage
    rw [if_pos (by omega : (0 : Int) ≤ ((p0 * 256 + p1 : Nat) : Int)), hsh, han]
    exact ⟨rfl, trivial⟩
  · intro hov deviceRead
    simp only [runParamsPhase]
    rw [if_pos hov]
    simp only [if_pos (And.intro hlen hhdr)]
    unfold patchBootImage
    rw [if_pos hov]

/-- C1 counterexample: with device header bytes 00 80 (the second at or
above 0x80), the preserve pass leaves the boot image bytes 2 and 3
untouched instead of copying the device bytes: sign extension of the
char 0x80 makes the assembled flash-parameter int negative. -/
theorem run_boot_image_flash_params_counterexample :
    (runParamsPhase (-1) true [0, 128] (some [233, 0, 170, 187])).image0
        = some [233, 0, 170, 187]
    ∧ deviceFlashParams 0 128 = -128
    ∧ ([170, 187] : List Nat) ≠ [0, 128] := by
  refine ⟨by decide, by decide, by decide⟩

/-- C1 witness: the spec scenario with device flash params 03 02 patches
the boot image bytes to 03 02. -/
theorem run_boot_image_flash_params_patch_witness :
    (runParamsPhase (-1) true [3, 2] (some [233, 0, 170, 187])).image0
        = some (([233, 0, 170, 187].set 2 3).set 3 2)
    ∧ (runParamsPhase (-1) true [3, 2] (some [233, 0, 170, 187])).aborted = false :=
  (run_boot_image_flash_params_patch (-1) [233, 0, 170, 187] 3 2 (by decide)
    (by decide)).2.1 (by decide) (by decide) (by decide)

/-- One-step equation of splitComma on a non-empty string. -/
theorem splitComma_cons (c : Char) (rest : List Char) :
    splitComma (c :: rest)
      = match splitComma rest with
        | [] => [[]]
        | p :: ps => if c = ',' then [] :: p :: ps else (c :: p) :: ps := rfl

/-- splitComma always yields at least one part. -/
theorem splitComma_ne_nil (s : List Char) : splitComma s ≠ [] := by
  induction s with
  | nil => simp [splitComma]
  | cons c rest ih =>
    rw [splitComma_cons]
    cases h : splitComma rest with
    | nil => exact absurd h ih
    | cons p ps =>
      split_ifs <;> simp

/-- A comma-free string is a single part. -/
theorem splitComma_no_comma (s : List Char) (h : ',' ∉ s) : splitComma s = [s] := by
  induction s with
  | nil => rfl
  | cons c rest ih =>
    have hc : ¬c = ',' := fun e => h (e ▸ List.mem_cons_self c rest)
    have hr : ',' ∉ rest := fun m => h (List.mem_cons_of_mem c m)
    rw [splitComma_cons, ih hr]
    simp [hc]

/-- Splitting past the first comma after a comma-free prefix. -/
theorem splitComma_append (a rest : List Char) (h : ',' ∉ a) :
    splitComma (a ++ ',' :: rest) = a :: splitComma rest := by
  induction a with
  | nil =>
    obtain ⟨p, ps, hp⟩ : ∃ p ps, splitComma rest = p :: ps := by
      cases hs : splitComma rest with
      | nil => exact absurd hs (splitComma_ne_nil rest)
      | cons p ps => exact ⟨p, ps, rfl⟩
    rw [List.nil_append, splitComma_cons, hp]
    simp [hp]
  | cons c a2 ih =>
    have hc : ¬c = ',' := fun e => h (e ▸ List.mem_cons_self c a2)
    have ha : ',' ∉ a2 := fun m => h (List.mem_cons_of_mem c m)
    rw [List.cons_append, splitComma_cons, ih ha]
    simp [hc]

/-- C8: triple strings over the mode, size and frequency alphabets parse
to (m << 8) | (s << 4) | f; a single-part string parses as a raw C
numeral masked to its low 16 bits; a triple with any component outside
its alphabet, or a part count other than 1 or 3, is an invalid
argument. -/
theorem flashParamsFromString_spec :
    (∀ me ∈ flashMode, ∀ se ∈ flashSize, ∀ fe ∈ flashFreq,
      flashParamsFromString (me.1 ++ ',' :: (se.1 ++ ',' :: fe.1))
        = Except.ok ((me.2 <<< 8 ||| se.2 <<< 4) ||| fe.2))
    ∧ (∀ s : List Char, ',' ∉ s →
        flashParamsFromString s
          = match cppToInt s with
            | some r => Except.ok ((r % 65536).toNat)
            | none => Except.error FlashParamsError.invalidArgument)
    ∧ (∀ p1 p2 p3 : List Char, ',' ∉ p1 → ',' ∉ p2 → ',' ∉ p3 →
        (mapFind flashMode p1 = none ∨ mapFind flashSize p2 = none
          ∨ mapFind flashFreq p3 = none) →
        flashParamsFromString (p1 ++ ',' :: (p2 ++ ',' :: p3))
          = Except.error FlashParamsError.invalidArgument)
    ∧ (∀ s : List Char, (splitComma s).length ≠ 1 → (splitComma s).length ≠ 3 →
        flashParamsFromString s = Except.error FlashParamsError.invalidArgument) := by
  refine ⟨by decide, ?_, ?_, ?_⟩
  · intro s h
    unfold flashParamsFromString
    rw [splitComma_no_comma s h]
    rfl
  · intro p1 p2 p3 h1 h2 h3 hd
    unfold flashParamsFromString
    rw [splitComma_append p1 (p2 ++ ',' :: p3) h1, splitComma_append p2 p3 h2,
      splitComma_no_comma p3 h3]
    simp only [List.length_cons, List.length_nil, List.getD_cons_zero, List.getD_cons_succ,
      reduceIte]
    rcases hd with hd | hd | hd
    · rw [hd]
      rfl
    · cases hm : mapFind flashMode p1 <;> simp only [hd, hm] <;> rfl
    · cases hm : mapFind flashMode p1 <;> cases hs2 : mapFind flashSize p2 <;>
        simp only [hd, hm, hs2] <;> rfl
  · intro s h1 h3
    unfold flashParamsFromString
    rw [if_neg h1, if_neg h3]

/-- C8 witness: the spec scenario dio,32m,40m packs to 0x0240, and the
raw numeral 0x0220 is returned masked. -/
theorem flashParamsFromString_spec_witness :
    flashParamsFromString ("dio".data ++ ',' :: ("32m".data ++ ',' :: "40m".data))
        = Except.ok ((2 <<< 8 ||| 4 <<< 4) ||| 0)
    ∧ flashParamsFromString "0x0220".data = Except.ok 544 :=
  ⟨flashParamsFromString_spec.1 ("dio".data, 2) (by decide) ("32m".data, 4) (by decide)
      ("40m".data, 0) (by decide),
   by
    have h := flashParamsFromString_spec.2.1 "0x0220".data (by decide)
    rw [h]
    decide⟩

/-- One-step equation of the per-file loop of load. -/
theorem loadGo_cons (f : ImageFile) (rest : List ImageFile) (m : List (Nat × List Nat)) :
    loadGo (f :: rest) m
      = match parseHexULong f.baseName with
        | none => (m, some LoadError.notValidAddress)
        | some addr =>
          if f.openOk = false then (m, some LoadError.openFailed)
          else if f.content.length ≠ f.reportedSize then ([], some LoadError.sizeMismatch)
          else loadGo rest (mapInsert m addr f.content) := rfl

/-- The per-file loop of load carries the bindings of an error-free
prefix of the listing into the processing of the remainder. -/
theorem loadGo_good_prefix (gs : List ImageFile) :
    ∀ (l : List ImageFile) (m : List (Nat × List Nat)), (∀ g ∈ gs, goodFile g) →
      loadGo (gs ++ l) m
        = loadGo l (gs.foldl
            (fun m2 g => mapInsert m2 ((parseHexULong g.baseName).getD 0) g.content) m) := by
  induction gs with
  | nil =>
    intro l m _
    simp
  | cons g gs2 ih =>
    intro l m h
    obtain ⟨hp, ho, hs⟩ := h g (List.mem_cons_self g gs2)
    obtain ⟨a, ha⟩ := Option.isSome_iff_exists.mp hp
    rw [List.cons_append, loadGo_cons, ha]
    simp only [ho, hs]
    rw [ih l _ (fun g2 hg2 => h g2 (List.mem_cons_of_mem g hg2))]
    simp [ha]

/-- C9: load clears the image map before scanning, so the previous
contents never survive; a stem that does not parse as a hexadecimal
address or a file that fails to open aborts the scan with an error while
the images loaded before the failing file stay in the map; only a
readAll size mismatch clears the map again on its way out. -/
theorem load_not_atomic_on_failure (prev : List (Nat × List Nat)) (gs : List ImageFile)
    (f : ImageFile) (rest : List ImageFile) (hgs : ∀ g ∈ gs, goodFile g) :
    (parseHexULong f.baseName = none →
      load true (gs ++ f :: rest) prev = (goodMap gs, some LoadError.notValidAddress))
    ∧ ((parseHexULong f.baseName).isSome = true → f.openOk = false →
      load true (gs ++ f :: rest) prev = (goodMap gs, some LoadError.openFailed))
    ∧ ((parseHexULong f.baseName).isSome = true → f.openOk = true →
        f.content.length ≠ f.reportedSize →
      load true (gs ++ f :: rest) prev = ([], some LoadError.sizeMismatch)) := by
  have hne : (gs ++ f :: rest).isEmpty = false := by
    cases gs <;> rfl
  have hstep : load true (gs ++ f :: rest) prev = loadGo (f :: rest) (goodMap gs) := by
    unfold load
    simp only [Bool.not_true, hne]
    rw [if_neg (by simp), if_neg (by simp)]
    exact loadGo_good_prefix gs (f :: rest) [] hgs
  refine ⟨?_, ?_, ?_⟩
  · intro hp
    rw [hstep, loadGo_cons, hp]
  · intro hp ho
    obtain ⟨a, ha⟩ := Option.isSome_iff_exists.mp hp
    rw [hstep, loadGo_cons, ha]
    simp [ho]
  · intro hp ho hsz
    obtain ⟨a, ha⟩ := Option.isSome_iff_exists.mp hp
    rw [hstep, loadGo_cons, ha]
    simp [ho, hsz]

/-- C9 witness: a good file followed by a file with an unparsable stem:
load reports the error, yet the map keeps the first image, so it holds
neither the previous contents nor an empty map. -/
theorem load_not_atomic_on_failure_witness :
    load true [⟨"0x1000".data, true, [5], 1⟩, ⟨"zz".data, true, [], 0⟩] [(7, [9])]
        = (goodMap [⟨"0x1000".data, true, [5], 1⟩], some LoadError.notValidAddress)
    ∧ goodMap [⟨"0x1000".data, true, [5], 1⟩] = [(4096, [5])] :=
  ⟨by
    have h := (load_not_atomic_on_failure [(7, [9])] [⟨"0x1000".data, true, [5], 1⟩]
        ⟨"zz".data, true, [], 0⟩ [] (by decide)).1 (by decide)
    simpa using h,
   by decide⟩

/-- Every base64 alphabet character is non-zero. -/
theorem b64char_ne_zero (n : Nat) : b64char n ≠ 0 := by
  have h : n % 64 < 64 := Nat.mod_lt _ (by norm_num)
  have hall : ∀ i, i < 64 → b64alphabet.getD i 65 ≠ 0 := by decide
  exact hall _ h

/-- base64url output never contains a zero byte. -/
theorem base64url_ne_zero (l : List Nat) : ∀ c ∈ base64url l, c ≠ 0 := by
  induction l using base64url.induct with
  | case1 b1 b2 b3 rest ih =>
    intro c hc
    simp only [base64url, List.mem_cons] at hc
    rcases hc with h | h | h | h | h
    · exact h ▸ b64char_ne_zero _
    · exact h ▸ b64char_ne_zero _
    · exact h ▸ b64char_ne_zero _
    · exact h ▸ b64char_ne_zero _
    · exact ih c h
  | case2 b1 b2 =>
    intro c hc
    simp only [base64url, List.mem_cons, List.not_mem_nil, or_false] at hc
    rcases hc with h | h | h <;> exact h ▸ b64char_ne_zero _
  | case3 b1 =>
    intro c hc
    simp only [base64url, List.mem_cons, List.not_mem_nil, or_false] at hc
    rcases hc with h | h <;> exact h ▸ b64char_ne_zero _
  | case4 =>
    intro c hc
    simp [base64url] at hc

/-- Length of a base64url encoding: four characters per three input
bytes, with two or three characters for a remainder of one or two. -/
theorem base64url_length (l : List Nat) :
    (base64url l).length
      = 4 * (l.length / 3) + (if l.length % 3 = 0 then 0 else l.length % 3 + 1) := by
  induction l using base64url.induct with
  | case1 b1 b2 b3 rest ih =>
    simp only [base64url, List.length_cons, ih]
    split_ifs <;> omega
  | case2 b1 b2 => simp [base64url]
  | case3 b1 => simp [base64url]
  | case4 => simp [base64url]

/-- The identity payload is 40 bytes of fixed JSON scaffolding plus the
hostname: the id encodes to 7 characters and the key to 10. -/
theorem idPayload_length (host rnd : List Nat) (hr : rnd.length = 12) :
    (idPayload host rnd).length = 40 + host.length := by
  have h5 : (rnd.take 5).length = 5 := by simp [hr]
  have h7 : (rnd.drop 5).length = 7 := by simp [hr]
  have b5 : (base64url (rnd.take 5)).length = 7 := by
    rw [base64url_length, h5]
    decide
  have b7 : (base64url (rnd.drop 5)).length = 10 := by
    rw [base64url_length, h7]
    decide
  have t1 : (strBytes "\x7b\"id\":\"//").length = 9 := by decide
  have t2 : (strBytes "/d/").length = 3 := by decide
  have t3 : (strBytes "\",\"key\":\"").length = 9 := by decide
  have t4 : (strBytes "\"\x7d").length = 2 := by decide
  simp only [idPayload, List.length_append, t1, t2, t3, t4, b5, b7]
  omega

/-- For a hostname without zero bytes the payload has no zero byte. -/
theorem idPayload_ne_zero (host rnd : List Nat) (hh : (0 : Nat) ∉ host) :
    ∀ c ∈ idPayload host rnd, c ≠ 0 := by
  have ht1 : ∀ x ∈ strBytes "\x7b\"id\":\"//", x ≠ 0 := by decide
  have ht2 : ∀ x ∈ strBytes "/d/", x ≠ 0 := by decide
  have ht3 : ∀ x ∈ strBytes "\",\"key\":\"", x ≠ 0 := by decide
  have ht4 : ∀ x ∈ strBytes "\"\x7d", x ≠ 0 := by decide
  intro c hc
  simp only [idPayload, List.mem_append] at hc
  rcases hc with ((((((h | h) | h) | h) | h) | h) | h)
  · exact ht1 c h
  · exact fun e => hh (e ▸ h)
  · exact ht2 c h
  · exact base64url_ne_zero _ c h
  · exact ht3 c h
  · exact base64url_ne_zero _ c h
  · exact ht4 c h

/-- The first zero of a zero-free list followed by a zero terminator sits
exactly at the end of the list. -/
theorem zeroIndexFrom_append (l t : List Nat) (h : ∀ c ∈ l, c ≠ 0) :
    zeroIndexFrom (l ++ 0 :: t) = some l.length := by
  induction l with
  | nil => simp [zeroIndexFrom]
  | cons c l2 ih =>
    have hc : ¬c = 0 := h c (List.mem_cons_self c l2)
    simp only [List.cons_append, zeroIndexFrom, List.append_eq]
    rw [if_neg hc, ih (fun x hx => h x (List.mem_cons_of_mem c hx))]
    simp

/-- When the block content fits, the underflow-prone pad computation is
the plain difference. -/
theorem padCount_of_le (lenR : Nat) (h : lenR ≤ 4096) : padCount lenR = 4096 - lenR := by
  unfold padCount qtRepeatTimes s32ofU32
  split_ifs <;> omega

/-- Unfolding of generateIdBlock. -/
theorem generateIdBlock_eq (sha1 : List Nat → List Nat) (host rnd : List Nat) :
    generateIdBlock sha1 host rnd
      = (sha1 (idPayload host rnd) ++ idPayload host rnd ++ [0])
        ++ List.replicate
            (padCount (sha1 (idPayload host rnd) ++ idPayload host rnd ++ [0]).length)
            255 := rfl

/-- C4 amended: for a hostname whose UTF-8 bytes contain no zero byte
and no percent sign and total at most 4035 bytes, and any 12 random
bytes, the generated block is exactly 4096 bytes laid out as hash,
payload, zero terminator and 0xFF padding, and the presence check
accepts it, for every 20-byte hash function. -/
theorem generateIdBlock_findId_roundtrip (sha1 : List Nat → List Nat)
    (hsha : ∀ d, (sha1 d).length = 20) (host rnd : List Nat)
    (h0 : (0 : Nat) ∉ host) (_hpct : (37 : Nat) ∉ host)
    (hlen : host.length ≤ 4035) (hr : rnd.length = 12) :
    (generateIdBlock sha1 host rnd).length = 4096
    ∧ generateIdBlock sha1 host rnd
        = sha1 (idPayload host rnd) ++ idPayload host rnd ++ [0]
          ++ List.replicate (4035 - host.length) 255
    ∧ findIdLocked sha1 (generateIdBlock sha1 host rnd) = true := by
  have hdl : (idPayload host rnd).length = 40 + host.length := idPayload_length host rnd hr
  have hrl : (sha1 (idPayload host rnd) ++ idPayload host rnd ++ [0]).length
      = 61 + host.length := by
    simp [List.length_append, hsha, hdl]
    omega
  have hgen : generateIdBlock sha1 host rnd
      = sha1 (idPayload host rnd) ++ idPayload host rnd ++ [0]
        ++ List.replicate (4035 - host.length) 255 := by
    rw [generateIdBlock_eq, hrl, padCount_of_le _ (by omega),
      show 4096 - (61 + host.length) = 4035 - host.length from by omega]
  refine ⟨?_, hgen, ?_⟩
  · rw [hgen]
    simp [List.length_append, hsha, hdl, List.length_replicate]
    omega
  · have hdata0 : ∀ c ∈ idPayload host rnd, c ≠ 0 := idPayload_ne_zero host rnd h0
    rw [hgen]
    unfold findIdLocked
    have hassoc : sha1 (idPayload host rnd) ++ idPayload host rnd ++ [0]
        ++ List.replicate (4035 - host.length) 255
        = sha1 (idPayload host rnd)
          ++ (idPayload host rnd ++ 0 :: List.replicate (4035 - host.length) 255) := by
      simp [List.append_assoc]
    rw [hassoc, List.drop_left' (hsha _), List.take_left' (hsha _),
      zeroIndexFrom_append _ _ hdata0]
    simp only [List.take_left]
    simp

/-- C4 counterexample: a 5000-byte hostname makes the block 5061 bytes
long (the pad count underflows and is clamped to zero), not 4096; shown
for a fixed 20-byte hash function. -/
theorem generateIdBlock_length_counterexample :
    (generateIdBlock (fun _ => List.replicate 20 0) (List.replicate 5000 97)
        (List.replicate 12 0)).length ≠ 4096 := by
  have hdl : (idPayload (List.replicate 5000 97) (List.replicate 12 0)).length = 5040 := by
    rw [idPayload_length _ _ (by rw [List.length_replicate]), List.length_replicate]
  have hpad : padCount 5061 = 0 := by decide
  rw [generateIdBlock_eq]
  simp only [List.length_append, List.length_replicate, List.length_cons, List.length_nil, hdl]
  norm_num [hpad]

/-- C4 witness: the roundtrip at a one-character hostname and fixed
randomness and hash function. -/
theorem generateIdBlock_findId_roundtrip_witness :
    ((0 : Nat) ∉ ([97] : List Nat))
    ∧ findIdLocked (fun _ => List.replicate 20 1)
        (generateIdBlock (fun _ => List.replicate 20 1) [97] (List.replicate 12 0)) = true :=
  ⟨by decide,
   (generateIdBlock_findId_roundtrip (fun _ => List.replicate 20 1)
      (fun d => by simp) [97] (List.replicate 12 0) (by decide) (by decide) (by decide)
      (by simp)).2.2⟩

end ESP8266
